import Mathlib

/-!
# Verification of the FAL season-statistics scraper (`fal_scraper_v2.0.py`)

A shallow embedding of the scraper's core data flow, checked against its
natural-language specification.

Modelling conventions:
* Machine integers are `Nat`/`Int`; Python's exact-rational reading of
  `x / y` on numbers is `ℚ` division, `x // y` on nonnegative ints is `Nat`
  division.
* A raw API record is `AnimeData`; fields read through `.get(key, default)`
  in Python are `Option` fields read through `Option.getD`.
* Fallible remote calls are total functions into `Option` — the Python
  fetcher catches every exception and returns the parsed record or `None`.
* The sort stage's rows are either records or error strings
  (`isinstance(x, str)` dispatch), modelled by the sum type `Row`.
-/

/-- One title's raw record as returned by the metadata API and consumed by
`calculate_variables` / `populate_sheet` / `sort_data`.  Statistics counters
(`watching`, `completed`, `dropped`, `plan_to_watch`) and `status` are read
in Python with `.get(..., default)`, hence `Option` here; `title` and `id`
are accessed by direct indexing. -/
structure AnimeData where
  title : String
  id : Nat
  mean : Option ℚ
  num_favorites : Option Nat
  status : Option String
  watching : Option Nat
  completed : Option Nat
  dropped : Option Nat
  plan_to_watch : Option Nat
deriving DecidableEq, Repr

/-- The tuple returned by `calculate_variables`:
`(status_code, watching, completed, dropped, ptw, watch_comp, watch_drop, active_ratio)`. -/
structure DerivedVars where
  status_code : String
  watching : Nat
  completed : Nat
  dropped : Nat
  ptw : Nat
  watch_comp : Nat
  watch_drop : Nat
  active_ratio : ℚ
deriving DecidableEq, Repr

/-- `preair_noise_floor = math.ceil(200 + ptw // 250)` — note the Python
floor division `//` inside the (therefore vacuous) `math.ceil`. -/
def preair_noise_floor (ptw : Nat) : ℤ :=
  Int.ceil ((200 : ℚ) + ((ptw / 250 : Nat) : ℚ))

/-- `comp_noise_floor = math.ceil(100 + watching / 30)` — true division. -/
def comp_noise_floor (watching : Nat) : ℤ :=
  Int.ceil ((100 : ℚ) + (watching : ℚ) / 30)

/-- Modelled from the spec (for refinement comparison only):
`preairNoiseFloor = ceil(200 + plan_to_watch / 250)` under exact rational
division. -/
def preairNoiseFloorSpec (ptw : Nat) : ℤ :=
  Int.ceil ((200 : ℚ) + (ptw : ℚ) / 250)

/-- Modelled from the spec (for refinement comparison only):
`completedNoiseFloor = ceil(100 + watching / 30)` under exact rational
division. -/
def compNoiseFloorSpec (watching : Nat) : ℤ :=
  Int.ceil ((100 : ℚ) + (watching : ℚ) / 30)

/-- The common tail of `calculate_variables`: after the status branches have
fixed the final counter values, Python computes
`watch_comp = watching + completed`, `watch_drop = watch_comp + dropped`,
`active_ratio = watch_comp / ptw if ptw > 0 else 0.00` and returns the
tuple. -/
def derive_tail (status_code : String) (watching completed dropped ptw : Nat) : DerivedVars :=
  let watch_comp := watching + completed
  let watch_drop := watch_comp + dropped
  let active_ratio : ℚ := if 0 < ptw then (watch_comp : ℚ) / (ptw : ℚ) else 0
  ⟨status_code, watching, completed, dropped, ptw, watch_comp, watch_drop, active_ratio⟩

/-- `calculate_variables(data)`.  Python mutates the local counters inside
the status branches and then computes the aggregates once; here each branch
passes its final counter values to the common tail `derive_tail`. -/
def calculate_variables (data : AnimeData) : DerivedVars :=
  let status := data.status.getD ""
  let watching := data.watching.getD 0
  let completed := data.completed.getD 0
  let dropped := data.dropped.getD 0
  let ptw := data.plan_to_watch.getD 0
  if status = "not_yet_aired" then
    if (watching : ℤ) < preair_noise_floor ptw then
      derive_tail "NYA" 0 0 0 ptw
    else
      derive_tail "PRE" watching 0 dropped ptw
  else if status = "finished_airing" then
    derive_tail "FIN" watching completed dropped ptw
  else if status = "currently_airing" then
    if (completed : ℤ) < comp_noise_floor watching then
      derive_tail "AIR" watching 0 dropped ptw
    else
      derive_tail "FIN?" watching completed dropped ptw
  else
    derive_tail "UNK" watching completed dropped ptw

/-- The Drop Rate cell written by `populate_sheet`, column I:
`dropped / watch_drop if watch_drop > 0 else 0`. -/
def drop_rate (v : DerivedVars) : ℚ :=
  if 0 < v.watch_drop then (v.dropped : ℚ) / (v.watch_drop : ℚ) else 0

/-! ## Helper lemmas for the classifier -/

lemma preair_noise_floor_eq (ptw : Nat) :
    preair_noise_floor ptw = 200 + ((ptw / 250 : Nat) : ℤ) := by
  unfold preair_noise_floor
  generalize (ptw / 250 : Nat) = m
  rw [show ((200 : ℚ) + (m : ℚ)) = (((200 + m : Nat) : ℚ)) by push_cast; ring,
    Int.ceil_natCast]
  push_cast
  ring

lemma comp_noise_floor_zero : comp_noise_floor 0 = 100 := by
  simp [comp_noise_floor]

lemma derive_tail_status (c : String) (w cp dr p : Nat) :
    (derive_tail c w cp dr p).status_code = c := rfl

lemma derive_tail_active_ratio (c : String) (w cp dr p : Nat) :
    (derive_tail c w cp dr p).active_ratio =
      if 0 < p then ((w + cp : Nat) : ℚ) / (p : ℚ) else 0 := rfl

lemma calculate_variables_cases (d : AnimeData) :
    calculate_variables d = derive_tail "NYA" 0 0 0 (d.plan_to_watch.getD 0) ∨
    calculate_variables d =
      derive_tail "PRE" (d.watching.getD 0) 0 (d.dropped.getD 0) (d.plan_to_watch.getD 0) ∨
    calculate_variables d =
      derive_tail "FIN" (d.watching.getD 0) (d.completed.getD 0) (d.dropped.getD 0)
        (d.plan_to_watch.getD 0) ∨
    calculate_variables d =
      derive_tail "AIR" (d.watching.getD 0) 0 (d.dropped.getD 0) (d.plan_to_watch.getD 0) ∨
    calculate_variables d =
      derive_tail "FIN?" (d.watching.getD 0) (d.completed.getD 0) (d.dropped.getD 0)
        (d.plan_to_watch.getD 0) ∨
    calculate_variables d =
      derive_tail "UNK" (d.watching.getD 0) (d.completed.getD 0) (d.dropped.getD 0)
        (d.plan_to_watch.getD 0) := by
  unfold calculate_variables
  dsimp only
  split_ifs <;> simp

lemma active_ratio_form (d : AnimeData) :
    (calculate_variables d).active_ratio =
      if 0 < (calculate_variables d).ptw then
        ((calculate_variables d).watch_comp : ℚ) / ((calculate_variables d).ptw : ℚ)
      else 0 := by
  rcases calculate_variables_cases d with h | h | h | h | h | h <;> rw [h] <;> rfl

lemma ptw_form (d : AnimeData) :
    (calculate_variables d).ptw = d.plan_to_watch.getD 0 := by
  rcases calculate_variables_cases d with h | h | h | h | h | h <;> rw [h] <;> rfl

/-! ## Concrete inputs used by witnesses -/

/-- Not yet aired, watching below the pre-air noise floor. -/
def exNya : AnimeData :=
  ⟨"a", 1, none, none, some "not_yet_aired", some 0, some 3, some 4, some 0⟩

/-- Not yet aired, watching at/above the pre-air noise floor (floor is 200). -/
def exPre : AnimeData :=
  ⟨"b", 2, none, none, some "not_yet_aired", some 250, some 3, some 4, some 0⟩

/-- Finished airing. -/
def exFin : AnimeData :=
  ⟨"c", 3, none, none, some "finished_airing", some 5, some 6, some 7, some 8⟩

/-- Currently airing, completed below the completion noise floor (floor is 100). -/
def exAir : AnimeData :=
  ⟨"d", 4, none, none, some "currently_airing", some 0, some 0, some 2, some 9⟩

/-- Currently airing, completed at/above the completion noise floor. -/
def exFinQ : AnimeData :=
  ⟨"e", 5, none, none, some "currently_airing", some 0, some 150, some 2, some 9⟩

/-- Missing status: falls through to the UNK fallback. -/
def exUnk : AnimeData :=
  ⟨"f", 6, none, none, none, some 5, some 7, some 2, none⟩

/-- All-zero counters record used for the division-by-zero witness. -/
def exZero : AnimeData :=
  ⟨"g", 7, none, none, none, some 0, some 0, some 0, some 0⟩

/-! ## C2 — status decision table -/

/-- **C2.** `calculate_variables` implements the spec's status decision
table, evaluated in order with first match winning, over the noise floors it
computes: `not_yet_aired` with watching below the pre-air floor gives `NYA`
with watching, completed and dropped zeroed; `not_yet_aired` otherwise gives
`PRE` with only completed zeroed; `finished_airing` gives `FIN`;
`currently_airing` with completed below the completion floor gives `AIR`
with completed zeroed; `currently_airing` otherwise gives `FIN?` with
completed retained; any other raw status gives `UNK`.  The function is total
and always returns one of the six status codes. -/
theorem C2_status_decision_table (d : AnimeData) :
    ((calculate_variables d).status_code = "NYA" ∨
      (calculate_variables d).status_code = "PRE" ∨
      (calculate_variables d).status_code = "FIN" ∨
      (calculate_variables d).status_code = "AIR" ∨
      (calculate_variables d).status_code = "FIN?" ∨
      (calculate_variables d).status_code = "UNK") ∧
    (d.status.getD "" = "not_yet_aired" →
      (((d.watching.getD 0 : ℤ) < preair_noise_floor (d.plan_to_watch.getD 0) →
        (calculate_variables d).status_code = "NYA" ∧
        (calculate_variables d).watching = 0 ∧
        (calculate_variables d).completed = 0 ∧
        (calculate_variables d).dropped = 0) ∧
      (¬ ((d.watching.getD 0 : ℤ) < preair_noise_floor (d.plan_to_watch.getD 0)) →
        (calculate_variables d).status_code = "PRE" ∧
        (calculate_variables d).watching = d.watching.getD 0 ∧
        (calculate_variables d).completed = 0 ∧
        (calculate_variables d).dropped = d.dropped.getD 0))) ∧
    (d.status.getD "" = "finished_airing" →
      (calculate_variables d).status_code = "FIN" ∧
      (calculate_variables d).watching = d.watching.getD 0 ∧
      (calculate_variables d).completed = d.completed.getD 0 ∧
      (calculate_variables d).dropped = d.dropped.getD 0) ∧
    (d.status.getD "" = "currently_airing" →
      (((d.completed.getD 0 : ℤ) < comp_noise_floor (d.watching.getD 0) →
        (calculate_variables d).status_code = "AIR" ∧
        (calculate_variables d).completed = 0) ∧
      (¬ ((d.completed.getD 0 : ℤ) < comp_noise_floor (d.watching.getD 0)) →
        (calculate_variables d).status_code = "FIN?" ∧
        (calculate_variables d).completed = d.completed.getD 0))) ∧
    (d.status.getD "" ≠ "not_yet_aired" →
      d.status.getD "" ≠ "finished_airing" →
      d.status.getD "" ≠ "currently_airing" →
      (calculate_variables d).status_code = "UNK") := by
  refine ⟨?_, ?_, ?_, ?_, ?_⟩
  · rcases calculate_variables_cases d with h | h | h | h | h | h
    · exact Or.inl (by rw [h]; rfl)
    · exact Or.inr (Or.inl (by rw [h]; rfl))
    · exact Or.inr (Or.inr (Or.inl (by rw [h]; rfl)))
    · exact Or.inr (Or.inr (Or.inr (Or.inl (by rw [h]; rfl))))
    · exact Or.inr (Or.inr (Or.inr (Or.inr (Or.inl (by rw [h]; rfl)))))
    · exact Or.inr (Or.inr (Or.inr (Or.inr (Or.inr (by rw [h]; rfl)))))
  · intro hs
    constructor
    · intro hw
      unfold calculate_variables
      rw [if_pos hs, if_pos hw]
      exact ⟨rfl, rfl, rfl, rfl⟩
    · intro hw
      unfold calculate_variables
      rw [if_pos hs, if_neg hw]
      exact ⟨rfl, rfl, rfl, rfl⟩
  · intro hs
    unfold calculate_variables
    rw [if_neg (by simp [hs]), if_pos hs]
    exact ⟨rfl, rfl, rfl, rfl⟩
  · intro hs
    constructor
    · intro hc
      unfold calculate_variables
      rw [if_neg (by simp [hs]), if_neg (by simp [hs]), if_pos hs, if_pos hc]
      exact ⟨rfl, rfl⟩
    · intro hc
      unfold calculate_variables
      rw [if_neg (by simp [hs]), if_neg (by simp [hs]), if_pos hs, if_neg hc]
      exact ⟨rfl, rfl⟩
  · intro h1 h2 h3
    unfold calculate_variables
    rw [if_neg h1, if_neg h2, if_neg h3]
    rfl

/-- Witness for C2: each of the six branches fires on a concrete record. -/
theorem C2_status_decision_table_witness :
    (calculate_variables exNya).status_code = "NYA" ∧
    (calculate_variables exPre).status_code = "PRE" ∧
    (calculate_variables exFin).status_code = "FIN" ∧
    (calculate_variables exAir).status_code = "AIR" ∧
    (calculate_variables exFinQ).status_code = "FIN?" ∧
    (calculate_variables exUnk).status_code = "UNK" := by
  refine ⟨?_, ?_, ?_, ?_, ?_, ?_⟩
  · exact (((C2_status_decision_table exNya).2.1 rfl).1
      (by rw [preair_noise_floor_eq]; decide)).1
  · exact (((C2_status_decision_table exPre).2.1 rfl).2
      (by rw [preair_noise_floor_eq]; decide)).1
  · exact ((C2_status_decision_table exFin).2.2.1 rfl).1
  · exact (((C2_status_decision_table exAir).2.2.2.1 rfl).1
      (by rw [show exAir.watching.getD 0 = 0 from rfl, comp_noise_floor_zero]; decide)).1
  · exact (((C2_status_decision_table exFinQ).2.2.2.1 rfl).2
      (by rw [show exFinQ.watching.getD 0 = 0 from rfl, comp_noise_floor_zero]; decide)).1
  · exact (C2_status_decision_table exUnk).2.2.2.2 (by decide) (by decide) (by decide)

/-! ## C3 — noise-floor formulas -/

/-- **C3 counterexample.**  The claim says the code's pre-air noise floor
equals `ceil(200 + plan_to_watch / 250)` under exact rational division for
every nonnegative `plan_to_watch`.  At `plan_to_watch = 1` the code (floor
division) gives 200 while the spec formula gives 201. -/
theorem C3_counterexample :
    preair_noise_floor 1 = 200 ∧ preairNoiseFloorSpec 1 = 201 ∧
    preair_noise_floor 1 ≠ preairNoiseFloorSpec 1 := by
  have h1 : preair_noise_floor 1 = 200 := by rw [preair_noise_floor_eq]; decide
  have h2 : preairNoiseFloorSpec 1 = 201 := by
    unfold preairNoiseFloorSpec
    rw [Int.ceil_eq_iff] <;> norm_num
  exact ⟨h1, h2, by rw [h1, h2]; decide⟩

/-- **C3 (amended).**  The code's pre-air noise floor is
`200 + plan_to_watch // 250` (Python floor division; the surrounding
`math.ceil` is the identity on an integer), and the completion noise floor
is exactly the spec's `ceil(100 + watching / 30)`; the two pre-air formulas
agree at `plan_to_watch = 200000`, where both give 1000. -/
theorem C3_noise_floors_amended :
    (∀ ptw : Nat, preair_noise_floor ptw = 200 + ((ptw / 250 : Nat) : ℤ)) ∧
    (∀ w : Nat, comp_noise_floor w = compNoiseFloorSpec w) ∧
    preair_noise_floor 200000 = 1000 ∧ preairNoiseFloorSpec 200000 = 1000 := by
  refine ⟨preair_noise_floor_eq, fun w => rfl, ?_, ?_⟩
  · rw [preair_noise_floor_eq]; decide
  · unfold preairNoiseFloorSpec
    rw [Int.ceil_eq_iff] <;> norm_num

/-! ## C7 — derived ratios are safe -/

/-- **C7.**  For every record, `drop_rate` and `active_ratio` (the PTW
ratio) are nonnegative rationals, and each is exactly 0 when its denominator
is 0: `drop_rate = dropped / (watching + completed + dropped)` is 0 when
that sum is 0, and `active_ratio = (watching + completed) / plan_to_watch`
is 0 when `plan_to_watch` is 0.  (Finiteness is inherent: both live in ℚ.) -/
theorem C7_ratios_safe (d : AnimeData) :
    0 ≤ drop_rate (calculate_variables d) ∧
    0 ≤ (calculate_variables d).active_ratio ∧
    ((calculate_variables d).watch_drop = 0 → drop_rate (calculate_variables d) = 0) ∧
    (d.plan_to_watch.getD 0 = 0 → (calculate_variables d).active_ratio = 0) := by
  refine ⟨?_, ?_, ?_, ?_⟩
  · unfold drop_rate
    split_ifs
    · positivity
    · exact le_refl 0
  · rw [active_ratio_form]
    split_ifs
    · positivity
    · exact le_refl 0
  · intro h
    unfold drop_rate
    rw [h]
    simp
  · intro h
    rw [active_ratio_form, ptw_form, h]
    simp

/-- Witness for C7: the all-zero record has both ratios equal to 0. -/
theorem C7_ratios_safe_witness :
    drop_rate (calculate_variables exZero) = 0 ∧
    (calculate_variables exZero).active_ratio = 0 := by
  exact ⟨(C7_ratios_safe exZero).2.2.1 (by decide),
    (C7_ratios_safe exZero).2.2.2 (by decide)⟩

/-! ## C10 — unknown status leaves counters untouched -/

/-- **C10.**  For every record whose raw status is none of `not_yet_aired`,
`finished_airing`, `currently_airing` (including an empty or missing
status), `calculate_variables` returns `UNK` and keeps `watching`,
`completed`, `dropped` and `plan_to_watch` exactly as read from the record,
with the aggregates computed from those unmodified values. -/
theorem C10_unknown_status_untouched (d : AnimeData)
    (h1 : d.status.getD "" ≠ "not_yet_aired")
    (h2 : d.status.getD "" ≠ "finished_airing")
    (h3 : d.status.getD "" ≠ "currently_airing") :
    calculate_variables d =
      ⟨"UNK", d.watching.getD 0, d.completed.getD 0, d.dropped.getD 0,
        d.plan_to_watch.getD 0,
        d.watching.getD 0 + d.completed.getD 0,
        d.watching.getD 0 + d.completed.getD 0 + d.dropped.getD 0,
        if 0 < d.plan_to_watch.getD 0 then
          ((d.watching.getD 0 + d.completed.getD 0 : Nat) : ℚ) /
            (d.plan_to_watch.getD 0 : ℚ)
        else 0⟩ := by
  unfold calculate_variables
  rw [if_neg h1, if_neg h2, if_neg h3]
  rfl

/-- Witness for C10 at a concrete record with a missing status. -/
theorem C10_unknown_status_untouched_witness :
    calculate_variables exUnk = ⟨"UNK", 5, 7, 2, 0, 12, 14, 0⟩ := by
  have h := C10_unknown_status_untouched exUnk (by decide) (by decide) (by decide)
  rw [h]
  decide

/-! ## Rows and the sort stage

`sort_data(datas, sort_column)` sorts the dict values; a value is either a
record or an error string (`isinstance(x, str)` dispatch), modelled by
`Row`.  Python's `sorted` is an ascending *stable* sort by key;
`List.insertionSort` with the non-strict ≤-by-key relation is exactly that
(it keeps input order on key ties).

Python's branch keys are lexicographic pairs `(isinstance(x, str), v)`
whose second component is a float that may be `±inf`.  Per branch the
second component of every error row is one and the same constant, so the
pair order embeds order-isomorphically into `WithTop (WithBot ℚ)`: an
error row maps to `⊤` (it sorts after every data row and ties with other
error rows), a data row's value `v` maps to `(v : WithBot ℚ)`, with the
`-inf` arising from negating a missing value's `inf` sentinel mapped to
`⊥`. -/

inductive Row where
  | data (d : AnimeData)
  | err (msg : String)
deriving DecidableEq, Repr

/-- `isinstance(x, str)` — the row is an error message. -/
def isErrRow : Row → Bool
  | .err _ => true
  | .data _ => false

abbrev SortKey := WithTop (WithBot ℚ)

/-- A finite rational as a sort key (a data row's key value). -/
def finQ (q : ℚ) : SortKey := ((q : WithBot ℚ) : SortKey)

/-- The `-inf` key value (Python: a missing value's `inf` sentinel after
negation). -/
def botQ : SortKey := ((⊥ : WithBot ℚ) : SortKey)

/-- Compare two rows through a sort key (Python: `sorted(..., key=k)`). -/
def leBy {α : Type} [LE α] (k : Row → α) (x y : Row) : Prop := k x ≤ k y

instance {α : Type} [LE α] [h : @DecidableRel α (· ≤ ·)] (k : Row → α) :
    DecidableRel (leBy k) := fun x y => h (k x) (k y)

instance {α : Type} [LinearOrder α] (k : Row → α) : IsTotal Row (leBy k) :=
  ⟨fun a b => le_total (k a) (k b)⟩

instance {α : Type} [LinearOrder α] (k : Row → α) : IsTrans Row (leBy k) :=
  ⟨fun _ _ _ hab hbc => le_trans hab hbc⟩

/-- Column A — Title: `x if isinstance(x, str) else x['title'].lower()`.
Python compares strings lexicographically by code point and `.lower()`
lower-cases ASCII letters; we compare the character lists (Lean's `String`
order is the same order but does not reduce in the kernel). -/
def keyA : Row → List Char
  | .err s => s.data
  | .data d => d.title.data.map Char.toLower

/-- Column B — Score: `(isinstance(x, str), -get_sortable_value(x, 'mean')
if not isinstance(x, str) else 0)`; a missing `mean` is the `inf` sentinel,
negated to `-inf` for data rows. -/
def keyB : Row → SortKey
  | .err _ => ⊤
  | .data d =>
    match d.mean with
    | some m => finQ (-m)
    | none => botQ

/-- Column C — Favorites: like column B with `num_favorites`. -/
def keyC : Row → SortKey
  | .err _ => ⊤
  | .data d =>
    match d.num_favorites with
    | some f => finQ (-(f : ℚ))
    | none => botQ

/-- Column D — Posts: `-post_counts.get(int(x['id']), 0)` for data rows. -/
def keyD (post_counts : Nat → Nat) : Row → SortKey
  | .err _ => ⊤
  | .data d => finQ (-(post_counts d.id : ℚ))

/-- Column E — Watching: `-calculate_variables(x)[1]` for data rows. -/
def keyE : Row → SortKey
  | .err _ => ⊤
  | .data d => finQ (-((calculate_variables d).watching : ℚ))

/-- Column F — Completed: `-calculate_variables(x)[2]` for data rows. -/
def keyF : Row → SortKey
  | .err _ => ⊤
  | .data d => finQ (-((calculate_variables d).completed : ℚ))

/-- Column G — W+C: `-calculate_variables(x)[5]` for data rows. -/
def keyG : Row → SortKey
  | .err _ => ⊤
  | .data d => finQ (-((calculate_variables d).watch_comp : ℚ))

/-- Column H — Dropped: `-calculate_variables(x)[3]` for data rows. -/
def keyH : Row → SortKey
  | .err _ => ⊤
  | .data d => finQ (-((calculate_variables d).dropped : ℚ))

/-- Column I — Drop Rate:
`-(cv[3] / cv[6]) if not isinstance(x, str) and cv[6] > 0 else 0`. -/
def keyI : Row → SortKey
  | .err _ => ⊤
  | .data d =>
    finQ (if 0 < (calculate_variables d).watch_drop then
        -(((calculate_variables d).dropped : ℚ) / ((calculate_variables d).watch_drop : ℚ))
      else 0)

/-- Column J — PTW: `-calculate_variables(x)[4]` for data rows. -/
def keyJ : Row → SortKey
  | .err _ => ⊤
  | .data d => finQ (-((calculate_variables d).ptw : ℚ))

/-- Column K — PTW Ratio: `-calculate_variables(x)[7]` for data rows. -/
def keyK : Row → SortKey
  | .err _ => ⊤
  | .data d => finQ (-(calculate_variables d).active_ratio)

/-- `status_order = {'FIN': 0, 'FIN?': 1, 'AIR': 2, 'PRE': 3, 'NYA': 4,
'ERR': 5}`, read with `.get(code, 4)`. -/
def status_order (code : String) : ℚ :=
  if code = "FIN" then 0
  else if code = "FIN?" then 1
  else if code = "AIR" then 2
  else if code = "PRE" then 3
  else if code = "NYA" then 4
  else if code = "ERR" then 5
  else 4

/-- Column L — Status: `status_order.get(cv[0], 4)` for data rows, 5 for
error rows. -/
def keyL : Row → SortKey
  | .err _ => ⊤
  | .data d => finQ (status_order (calculate_variables d).status_code)

/-- Column M — ID: `int(x['id'])` for data rows, `inf` for error rows. -/
def keyM : Row → SortKey
  | .err _ => ⊤
  | .data d => finQ ((d.id : ℚ))

/-- `sort_data(datas, sort_column)` — the if/elif chain over the column
letter; an unrecognized column returns the input order unchanged. -/
def sort_data (post_counts : Nat → Nat) (datas : List Row) (sort_column : Char) : List Row :=
  if sort_column = 'A' then List.insertionSort (leBy keyA) datas
  else if sort_column = 'B' then List.insertionSort (leBy keyB) datas
  else if sort_column = 'C' then List.insertionSort (leBy keyC) datas
  else if sort_column = 'D' then List.insertionSort (leBy (keyD post_counts)) datas
  else if sort_column = 'E' then List.insertionSort (leBy keyE) datas
  else if sort_column = 'F' then List.insertionSort (leBy keyF) datas
  else if sort_column = 'G' then List.insertionSort (leBy keyG) datas
  else if sort_column = 'H' then List.insertionSort (leBy keyH) datas
  else if sort_column = 'I' then List.insertionSort (leBy keyI) datas
  else if sort_column = 'J' then List.insertionSort (leBy keyJ) datas
  else if sort_column = 'K' then List.insertionSort (leBy keyK) datas
  else if sort_column = 'L' then List.insertionSort (leBy keyL) datas
  else if sort_column = 'M' then List.insertionSort (leBy keyM) datas
  else datas

/-! ## Sort-stage helper lemmas -/

lemma sort_data_colB (pc : Nat → Nat) (rows : List Row) :
    sort_data pc rows 'B' = List.insertionSort (leBy keyB) rows := rfl

lemma sort_data_colE (pc : Nat → Nat) (rows : List Row) :
    sort_data pc rows 'E' = List.insertionSort (leBy keyE) rows := rfl

/-- Every branch of `sort_data` permutes its input. -/
lemma sort_data_perm (pc : Nat → Nat) (rows : List Row) (col : Char) :
    List.Perm (sort_data pc rows col) rows := by
  by_cases hA : col = 'A'
  · subst hA; exact List.perm_insertionSort _ _
  by_cases hB : col = 'B'
  · subst hB; exact List.perm_insertionSort _ _
  by_cases hC : col = 'C'
  · subst hC; exact List.perm_insertionSort _ _
  by_cases hD : col = 'D'
  · subst hD; exact List.perm_insertionSort _ _
  by_cases hE : col = 'E'
  · subst hE; exact List.perm_insertionSort _ _
  by_cases hF : col = 'F'
  · subst hF; exact List.perm_insertionSort _ _
  by_cases hG : col = 'G'
  · subst hG; exact List.perm_insertionSort _ _
  by_cases hH : col = 'H'
  · subst hH; exact List.perm_insertionSort _ _
  by_cases hI : col = 'I'
  · subst hI; exact List.perm_insertionSort _ _
  by_cases hJ : col = 'J'
  · subst hJ; exact List.perm_insertionSort _ _
  by_cases hK : col = 'K'
  · subst hK; exact List.perm_insertionSort _ _
  by_cases hL : col = 'L'
  · subst hL; exact List.perm_insertionSort _ _
  by_cases hM : col = 'M'
  · subst hM; exact List.perm_insertionSort _ _
  unfold sort_data
  rw [if_neg hA, if_neg hB, if_neg hC, if_neg hD, if_neg hE, if_neg hF, if_neg hG,
    if_neg hH, if_neg hI, if_neg hJ, if_neg hK, if_neg hL, if_neg hM]

/-- If a key sends every error row to `⊤` and no data row to `⊤`, then after
sorting by that key every error row follows every data row. -/
lemma errRows_last (k : Row → SortKey) (hdata : ∀ d, k (Row.data d) ≠ ⊤)
    (herr : ∀ s, k (Row.err s) = ⊤) (rows : List Row) :
    List.Sorted (fun x y => isErrRow x ≤ isErrRow y) (List.insertionSort (leBy k) rows) := by
  have hs := List.sorted_insertionSort (leBy k) rows
  refine List.Pairwise.imp ?_ hs
  intro x y hxy
  cases x with
  | data d => simp [isErrRow]
  | err s =>
    cases y with
    | err s2 => simp [isErrRow]
    | data d2 => exact absurd (top_le_iff.mp (herr s ▸ hxy)) (hdata d2)

lemma finQ_ne_top (q : ℚ) : finQ q ≠ ⊤ := WithTop.coe_ne_top

lemma botQ_lt_finQ (q : ℚ) : botQ < finQ q := by
  have h : (⊥ : WithBot ℚ) < (q : WithBot ℚ) := WithBot.bot_lt_coe q
  exact (WithTop.coe_lt_coe).mpr h

lemma botQ_ne_top : botQ ≠ ⊤ := WithTop.coe_ne_top

lemma keyB_data_ne_top (d : AnimeData) : keyB (Row.data d) ≠ ⊤ := by
  cases hm : d.mean <;> simp [keyB, hm, finQ_ne_top, botQ_ne_top]

lemma keyC_data_ne_top (d : AnimeData) : keyC (Row.data d) ≠ ⊤ := by
  cases hm : d.num_favorites <;> simp [keyC, hm, finQ_ne_top, botQ_ne_top]

/-! ## Concrete rows for the sort-stage claims -/

def rowId (t : String) (i : Nat) : Row :=
  Row.data ⟨t, i, none, none, none, none, none, none, none⟩

/-- A data row whose title sorts after the error string "ERR-row". -/
def exZShow : AnimeData :=
  ⟨"z-show", 9, none, none, none, none, none, none, none⟩

/-- A finished-airing row with a score. -/
def exScoreHave : AnimeData :=
  ⟨"h", 10, some 7, none, some "finished_airing", some 5, some 5, some 1, some 5⟩

/-- A finished-airing row with the score missing. -/
def exScoreLack : AnimeData :=
  ⟨"i", 11, none, none, some "finished_airing", some 5, some 5, some 1, some 5⟩

/-- A finished-airing row with a score, for the C6 failing evaluation. -/
def exScoreHaveB : AnimeData :=
  ⟨"p", 14, some 8, none, some "finished_airing", some 9, some 9, some 1, some 9⟩

/-- A finished-airing row with the score missing, for the C6 failing
evaluation. -/
def exScoreLackB : AnimeData :=
  ⟨"q", 15, none, none, some "finished_airing", some 9, some 9, some 1, some 9⟩

/-- A finished-airing row with a positive watching count. -/
def exWatchPos : AnimeData :=
  ⟨"j", 12, none, none, some "finished_airing", some 50, some 0, some 0, some 0⟩

/-- A finished-airing row with the watching count missing (read as 0). -/
def exWatchMissing : AnimeData :=
  ⟨"k", 13, none, none, some "finished_airing", none, some 0, some 0, some 0⟩

/-! ## C5 — failure rows sort to the bottom -/

/-- **C5 counterexample.**  Under the Title key ('A') the error string is
compared lexicographically together with the lowercased titles, so an error
row can sort *above* a data row: sorting `[data "z-show", err "ERR-row"]`
by 'A' puts the error row first ('E' < 'z' by code point), refuting
"failure rows always sort to the bottom regardless of key". -/
theorem C5_counterexample :
    sort_data (fun _ => 0) [Row.data exZShow, Row.err "ERR-row"] 'A' =
      [Row.err "ERR-row", Row.data exZShow] ∧
    ¬ List.Sorted (fun x y => isErrRow x ≤ isErrRow y)
        (sort_data (fun _ => 0) [Row.data exZShow, Row.err "ERR-row"] 'A') := by
  exact ⟨by decide, by decide⟩

/-- **C5 (amended).**  For every sort key other than Title ('A') — i.e. for
all of columns B–M — failure rows sort to the bottom of the output: the
error flag is monotone along the sorted sequence, so every data row
precedes every error row.  The spec's ID example holds: sorting rows with
ids 5, 1, 3 plus an error row by 'M' yields ids 1, 3, 5 with the error row
last.  (Under the Title key the error string participates in the
alphabetical order instead — see the counterexample.) -/
theorem C5_errors_sort_last_amended :
    (∀ col ∈ (['B', 'C', 'D', 'E', 'F', 'G', 'H', 'I', 'J', 'K', 'L', 'M'] : List Char),
      ∀ (post_counts : Nat → Nat) (rows : List Row),
        List.Sorted (fun x y => isErrRow x ≤ isErrRow y) (sort_data post_counts rows col)) ∧
    sort_data (fun _ => 0) [rowId "v" 5, rowId "w" 1, Row.err "ERR-row", rowId "x" 3] 'M' =
      [rowId "w" 1, rowId "x" 3, rowId "v" 5, Row.err "ERR-row"] := by
  constructor
  · intro col hcol post_counts rows
    simp only [List.mem_cons, List.not_mem_nil, or_false] at hcol
    rcases hcol with rfl | rfl | rfl | rfl | rfl | rfl | rfl | rfl | rfl | rfl | rfl | rfl
    · exact errRows_last keyB keyB_data_ne_top (fun s => rfl) rows
    · exact errRows_last keyC keyC_data_ne_top (fun s => rfl) rows
    · exact errRows_last (keyD post_counts) (fun d => finQ_ne_top _) (fun s => rfl) rows
    · exact errRows_last keyE (fun d => finQ_ne_top _) (fun s => rfl) rows
    · exact errRows_last keyF (fun d => finQ_ne_top _) (fun s => rfl) rows
    · exact errRows_last keyG (fun d => finQ_ne_top _) (fun s => rfl) rows
    · exact errRows_last keyH (fun d => finQ_ne_top _) (fun s => rfl) rows
    · exact errRows_last keyI (fun d => finQ_ne_top _) (fun s => rfl) rows
    · exact errRows_last keyJ (fun d => finQ_ne_top _) (fun s => rfl) rows
    · exact errRows_last keyK (fun d => finQ_ne_top _) (fun s => rfl) rows
    · exact errRows_last keyL (fun d => finQ_ne_top _) (fun s => rfl) rows
    · exact errRows_last keyM (fun d => finQ_ne_top _) (fun s => rfl) rows
  · decide

/-- Witness for C5: the general part applied at column 'M' and the
concrete rows of the spec's example. -/
theorem C5_errors_sort_last_witness :
    List.Sorted (fun x y => isErrRow x ≤ isErrRow y)
      (sort_data (fun _ => 0) [rowId "v" 5, Row.err "ERR-row", rowId "x" 3] 'M') :=
  C5_errors_sort_last_amended.1 'M' (by decide) (fun _ => 0)
    [rowId "v" 5, Row.err "ERR-row", rowId "x" 3]

/-! ## C6 — missing key values -/

/-- **C6 failing evaluation.**  The claim says a data row missing the key
value is treated as `+inf` and therefore sorts *last*.  Sorting by Score
('B'), the code negates the `inf` sentinel of the missing value to `-inf`,
so the row missing its score sorts *first* among data rows. -/
theorem C6_counterexample :
    sort_data (fun _ => 0) [Row.data exScoreHaveB, Row.data exScoreLackB] 'B' =
      [Row.data exScoreLackB, Row.data exScoreHaveB] := by
  decide

/-- Rank of a row under the Score key: data rows missing `mean` carry the
negated `inf` sentinel (`-inf`), data rows having it a finite value, error
rows `+inf`. -/
def scoreRank : Row → Nat
  | Row.err _ => 2
  | Row.data d =>
    match d.mean with
    | none => 0
    | some _ => 1

/-- Rank of a row under the Favorites key, analogously. -/
def favRank : Row → Nat
  | Row.err _ => 2
  | Row.data d =>
    match d.num_favorites with
    | none => 0
    | some _ => 1

/-- `post_counts.get(int(x['id']), 0)` — a post-count dict read with
default 0; a dict is an association list. -/
def post_counts_get (post_counts : List (Nat × Nat)) (i : Nat) : Nat :=
  (post_counts.lookup i).getD 0

lemma sort_data_colC (pc : Nat → Nat) (rows : List Row) :
    sort_data pc rows 'C' = List.insertionSort (leBy keyC) rows := rfl

lemma scoreRank_le_of_leBy (x y : Row) (hxy : leBy keyB x y) :
    scoreRank x ≤ scoreRank y := by
  cases x with
  | err s =>
    cases y with
    | err s2 => exact le_refl _
    | data d2 => exact absurd (top_le_iff.mp hxy) (keyB_data_ne_top d2)
  | data d =>
    cases hm : d.mean with
    | none => simp [scoreRank, hm]
    | some m =>
      cases y with
      | err s2 => simp [scoreRank, hm]
      | data d2 =>
        cases hm2 : d2.mean with
        | some m2 => simp [scoreRank, hm, hm2]
        | none =>
          exfalso
          have hk : keyB (Row.data d) ≤ keyB (Row.data d2) := hxy
          rw [show keyB (Row.data d) = finQ (-m) by simp [keyB, hm],
            show keyB (Row.data d2) = botQ by simp [keyB, hm2]] at hk
          exact (botQ_lt_finQ (-m)).not_le hk

lemma favRank_le_of_leBy (x y : Row) (hxy : leBy keyC x y) :
    favRank x ≤ favRank y := by
  cases x with
  | err s =>
    cases y with
    | err s2 => exact le_refl _
    | data d2 => exact absurd (top_le_iff.mp hxy) (keyC_data_ne_top d2)
  | data d =>
    cases hm : d.num_favorites with
    | none => simp [favRank, hm]
    | some f =>
      cases y with
      | err s2 => simp [favRank, hm]
      | data d2 =>
        cases hm2 : d2.num_favorites with
        | some f2 => simp [favRank, hm, hm2]
        | none =>
          exfalso
          have hk : keyC (Row.data d) ≤ keyC (Row.data d2) := hxy
          rw [show keyC (Row.data d) = finQ (-(f : ℚ)) by simp [keyC, hm],
            show keyC (Row.data d2) = botQ by simp [keyC, hm2]] at hk
          exact (botQ_lt_finQ (-(f : ℚ))).not_le hk

/-- **C6 (amended).**  For the Score and Favorites keys a data row whose
value is missing gets the `inf` sentinel *negated* to `-inf` as its key,
so it sorts first: in the sorted output every data row missing the value
precedes every data row having it (error rows still last), and a
missing-value row is actively moved ahead of a valued row.  For the
count-based keys a missing value is read as 0, not `+inf`:
`calculate_variables` reads a missing watching / completed / dropped /
plan-to-watch field exactly as an explicit 0 — so the watching, completed,
W+C, dropped, PTW and ratio keys, all computed from it, key the row as a
zero-valued row — and the Posts key reads a missing post-count entry as 0;
e.g. under the watching key the missing-watching row sorts after a
positive-watching row. -/
theorem C6_missing_values_amended :
    (∀ (post_counts : Nat → Nat) (m : ℚ) (d1 d2 : AnimeData),
      d1.mean = some m → d2.mean = none →
      sort_data post_counts [Row.data d1, Row.data d2] 'B' =
        [Row.data d2, Row.data d1]) ∧
    (∀ (post_counts : Nat → Nat) (rows : List Row),
      List.Sorted (fun x y => scoreRank x ≤ scoreRank y)
        (sort_data post_counts rows 'B')) ∧
    (∀ (post_counts : Nat → Nat) (rows : List Row),
      List.Sorted (fun x y => favRank x ≤ favRank y)
        (sort_data post_counts rows 'C')) ∧
    (∀ d : AnimeData, d.watching = none →
      calculate_variables d = calculate_variables { d with watching := some 0 }) ∧
    (∀ d : AnimeData, d.completed = none →
      calculate_variables d = calculate_variables { d with completed := some 0 }) ∧
    (∀ d : AnimeData, d.dropped = none →
      calculate_variables d = calculate_variables { d with dropped := some 0 }) ∧
    (∀ d : AnimeData, d.plan_to_watch = none →
      calculate_variables d = calculate_variables { d with plan_to_watch := some 0 }) ∧
    (∀ (post_counts : List (Nat × Nat)) (d : AnimeData),
      post_counts.lookup d.id = none →
      keyD (post_counts_get post_counts) (Row.data d) = finQ 0) ∧
    sort_data (fun _ => 0) [Row.data exWatchMissing, Row.data exWatchPos] 'E' =
      [Row.data exWatchPos, Row.data exWatchMissing] := by
  refine ⟨?_, ?_, ?_, ?_, ?_, ?_, ?_, ?_, ?_⟩
  · intro post_counts m d1 d2 h1 h2
    have hr : ¬ leBy keyB (Row.data d1) (Row.data d2) := by
      simp [leBy, keyB, h1, h2, botQ_lt_finQ]
    rw [sort_data_colB]
    simp [List.insertionSort, List.orderedInsert, hr]
  · intro post_counts rows
    rw [sort_data_colB]
    have hs := List.sorted_insertionSort (leBy keyB) rows
    refine List.Pairwise.imp ?_ hs
    intro x y hxy
    exact scoreRank_le_of_leBy x y hxy
  · intro post_counts rows
    rw [sort_data_colC]
    have hs := List.sorted_insertionSort (leBy keyC) rows
    refine List.Pairwise.imp ?_ hs
    intro x y hxy
    exact favRank_le_of_leBy x y hxy
  · intro d h
    unfold calculate_variables
    rw [h]
    rfl
  · intro d h
    unfold calculate_variables
    rw [h]
    rfl
  · intro d h
    unfold calculate_variables
    rw [h]
    rfl
  · intro d h
    unfold calculate_variables
    rw [h]
    rfl
  · intro post_counts d h
    simp [keyD, post_counts_get, h]
  · decide

/-- Witness for C6: each hypothesis-bearing part of the amended claim
applied at concrete inputs — the score pair is reordered, a missing
watching field derives the same variables as an explicit 0, and an id
absent from the post-count dict keys as 0. -/
theorem C6_missing_values_witness :
    sort_data (fun _ => 0) [Row.data exScoreHave, Row.data exScoreLack] 'B' =
      [Row.data exScoreLack, Row.data exScoreHave] ∧
    calculate_variables exWatchMissing =
      calculate_variables { exWatchMissing with watching := some 0 } ∧
    keyD (post_counts_get []) (Row.data exWatchPos) = finQ 0 := by
  refine ⟨?_, ?_, ?_⟩
  · exact C6_missing_values_amended.1 (fun _ => 0) 7 exScoreHave exScoreLack rfl rfl
  · exact C6_missing_values_amended.2.2.2.1 exWatchMissing rfl
  · exact C6_missing_values_amended.2.2.2.2.2.2.2.1 [] exWatchPos rfl

/-! ## The concurrent batch fetch and its failure accounting

`fetch_anime_data` wraps one API call in a retry loop and catches every
exception (`ClientResponseError` 404 and 504, other `ClientError`s after
the retries, and any unexpected exception), returning the parsed record or
`None`; its outcome is therefore a total function `Nat → Option AnimeData`
("no exception escapes").  `main` (embedded as `main_batch`) gathers one task per id and builds
`{anime_id: response ... if response is not None}`; Python dicts preserve
insertion order, so the mapping is an association list. -/

def main_batch (fetch : Nat → Option AnimeData) (anime_ids : List Nat) : List (Nat × AnimeData) :=
  anime_ids.filterMap (fun anime_id => (fetch anime_id).map (fun resp => (anime_id, resp)))

/-- `failed_anime_ids.extend([id for id in anime_ids if id not in datas])` —
the failure list built right after the primary batch. -/
def failed_anime_ids (fetch : Nat → Option AnimeData) (anime_ids : List Nat) : List Nat :=
  anime_ids.filter
    (fun anime_id => !((main_batch fetch anime_ids).map Prod.fst).contains anime_id)

/-- The script's top level: fetch the primary batch, extend the failure
list from it, then fetch the secondary batch (if any) *without* touching
the failure list.  Result: `(datas, failed_anime_ids, secondary_datas)`. -/
def run_batches (fetch : Nat → Option AnimeData)
    (anime_ids secondary_anime_ids : List Nat) :
    List (Nat × AnimeData) × List Nat × List (Nat × AnimeData) :=
  (main_batch fetch anime_ids, failed_anime_ids fetch anime_ids,
    if secondary_anime_ids.isEmpty then [] else main_batch fetch secondary_anime_ids)

/-- `datas.values()` — the rows handed to `sort_data`: only the fetched
records, wrapped as data rows. -/
def rowsOf (datas : List (Nat × AnimeData)) : List Row :=
  datas.map (fun p => Row.data p.2)

/-- `sorted_datas = sort_data(datas, sort_column)` — the final row sequence
handed to `populate_sheet` (the report renderer). -/
def finalRows (fetch : Nat → Option AnimeData) (anime_ids : List Nat)
    (post_counts : Nat → Nat) (sort_column : Char) : List Row :=
  sort_data post_counts (rowsOf (main_batch fetch anime_ids)) sort_column

/-- How many rows of the final row set belong to tracked id `i`: data rows
carrying that id, plus any error row (an error row has no id of its own, so
it is generously counted for every id). -/
def appearsCount (i : Nat) (rows : List Row) : Nat :=
  rows.countP (fun r =>
    match r with
    | Row.data d => d.id == i
    | Row.err _ => true)

/-! ## Batch-fetch helper lemmas -/

lemma keys_main (fetch : Nat → Option AnimeData) :
    ∀ ids : List Nat,
      (main_batch fetch ids).map Prod.fst = ids.filter (fun j => (fetch j).isSome)
  | [] => rfl
  | a :: t => by
    have ih := keys_main fetch t
    cases h : fetch a with
    | none => simpa [main_batch, List.filterMap_cons, h, List.filter_cons] using ih
    | some dd => simpa [main_batch, List.filterMap_cons, h, List.filter_cons] using ih

lemma mem_failed_iff (fetch : Nat → Option AnimeData) (ids : List Nat) (i : Nat)
    (hi : i ∈ ids) :
    i ∈ failed_anime_ids fetch ids ↔ fetch i = none := by
  unfold failed_anime_ids
  rw [List.mem_filter]
  simp [hi, keys_main, List.mem_filter, Option.isNone_iff_eq_none]

lemma appearsCount_main_zero (fetch : Nat → Option AnimeData)
    (hid : ∀ j dd, fetch j = some dd → dd.id = j) (i : Nat) :
    ∀ ids : List Nat, (∀ j ∈ ids, j ≠ i) →
      appearsCount i (rowsOf (main_batch fetch ids)) = 0
  | [], _ => rfl
  | a :: t, h => by
    have ha : a ≠ i := h a (List.mem_cons_self a t)
    have ih := appearsCount_main_zero fetch hid i t
      (fun j hj => h j (List.mem_cons_of_mem a hj))
    cases hf : fetch a with
    | none => simpa [appearsCount, rowsOf, main_batch, List.filterMap_cons, hf] using ih
    | some dd =>
      have hdd : dd.id = a := hid a dd hf
      simpa [appearsCount, rowsOf, main_batch, List.filterMap_cons, hf,
        List.countP_cons, hdd, ha] using ih

lemma appearsCount_main (fetch : Nat → Option AnimeData)
    (hid : ∀ j dd, fetch j = some dd → dd.id = j) (i : Nat) :
    ∀ ids : List Nat, ids.Nodup → i ∈ ids →
      appearsCount i (rowsOf (main_batch fetch ids)) = if (fetch i).isSome then 1 else 0
  | [], _, hmem => absurd hmem (List.not_mem_nil i)
  | a :: t, hnd, hmem => by
    rcases List.mem_cons.mp hmem with rfl | hmem2
    · have hni : ∀ j ∈ t, j ≠ i := by
        intro j hj he
        exact (List.nodup_cons.mp hnd).1 (he ▸ hj)
      have h0 := appearsCount_main_zero fetch hid i t hni
      cases hf : fetch i with
      | none => simpa [appearsCount, rowsOf, main_batch, List.filterMap_cons, hf] using h0
      | some dd =>
        have hdd : dd.id = i := hid i dd hf
        simpa [appearsCount, rowsOf, main_batch, List.filterMap_cons, hf,
          List.countP_cons, hdd] using h0
    · have ha : a ≠ i := by
        intro he
        exact (List.nodup_cons.mp hnd).1 (he ▸ hmem2)
      have ih := appearsCount_main fetch hid i t (List.nodup_cons.mp hnd).2 hmem2
      cases hf : fetch a with
      | none => simpa [appearsCount, rowsOf, main_batch, List.filterMap_cons, hf] using ih
      | some dd =>
        have hdd : dd.id = a := hid a dd hf
        simpa [appearsCount, rowsOf, main_batch, List.filterMap_cons, hf,
          List.countP_cons, hdd, ha] using ih

lemma countP_isErrRow_rowsOf (datas : List (Nat × AnimeData)) :
    (rowsOf datas).countP isErrRow = 0 := by
  induction datas with
  | nil => rfl
  | cons p t ih => simpa [rowsOf, List.countP_cons, isErrRow] using ih

/-! ## Concrete batch inputs -/

/-- The record served by `fetchW` for id 1. -/
def exW1 : AnimeData :=
  ⟨"w1", 1, none, none, some "finished_airing", some 5, some 5, some 1, some 5⟩

/-- A fetch outcome where only id 1 succeeds. -/
def fetchW : Nat → Option AnimeData := fun i => if i = 1 then some exW1 else none

lemma fetchW_id : ∀ j dd, fetchW j = some dd → dd.id = j := by
  intro j dd h
  unfold fetchW at h
  by_cases hj : j = 1
  · rw [if_pos hj] at h
    cases h
    rw [hj]
    rfl
  · rw [if_neg hj] at h
    cases h

/-- A fetch outcome where id 2 is NotFound and every other id succeeds. -/
def fetchC4 : Nat → Option AnimeData := fun i =>
  if i = 2 then none
  else some ⟨"t", i, none, none, some "finished_airing", some 5, some 5, some 1, some 5⟩

/-! ## C1 — every tracked id appears exactly once -/

/-- **C1 counterexample.**  With tracking set `[42]` and a permanently
failing fetch, the final row set handed to the renderer is empty: id 42
appears zero times, not once — there is no error/placeholder row for it
(it is only recorded in `failed_anime_ids` and logged). -/
theorem C1_counterexample :
    finalRows (fun _ => none) [42] (fun _ => 0) 'M' = [] ∧
    appearsCount 42 (finalRows (fun _ => none) [42] (fun _ => 0) 'M') = 0 ∧
    failed_anime_ids (fun _ => none) [42] = [42] := by
  exact ⟨by decide, by decide, by decide⟩

/-- **C1 (amended).**  The final row set contains exactly one data row per
tracked id whose fetch succeeded and no other rows: a tracked id whose
fetch permanently failed is omitted from the rendered rows entirely — it is
recorded in `failed_anime_ids` (and surfaced through the end-of-run error
summary log), not rendered as a placeholder row.  `hid` states that the API
returns each record under its own id. -/
theorem C1_rows_amended (fetch : Nat → Option AnimeData) (anime_ids : List Nat)
    (post_counts : Nat → Nat) (sort_column : Char)
    (hnd : anime_ids.Nodup)
    (hid : ∀ j dd, fetch j = some dd → dd.id = j) :
    (finalRows fetch anime_ids post_counts sort_column).countP isErrRow = 0 ∧
    ∀ i ∈ anime_ids,
      ((fetch i).isSome →
        appearsCount i (finalRows fetch anime_ids post_counts sort_column) = 1 ∧
        i ∉ failed_anime_ids fetch anime_ids) ∧
      (fetch i = none →
        appearsCount i (finalRows fetch anime_ids post_counts sort_column) = 0 ∧
        i ∈ failed_anime_ids fetch anime_ids) := by
  have hperm := sort_data_perm post_counts (rowsOf (main_batch fetch anime_ids)) sort_column
  constructor
  · calc (finalRows fetch anime_ids post_counts sort_column).countP isErrRow
        = (rowsOf (main_batch fetch anime_ids)).countP isErrRow := hperm.countP_eq _
      _ = 0 := countP_isErrRow_rowsOf _
  · intro i hi
    have hcount : appearsCount i (finalRows fetch anime_ids post_counts sort_column) =
        appearsCount i (rowsOf (main_batch fetch anime_ids)) := hperm.countP_eq _
    constructor
    · intro hsome
      refine ⟨?_, ?_⟩
      · rw [hcount, appearsCount_main fetch hid i anime_ids hnd hi, if_pos hsome]
      · intro hmem
        rw [mem_failed_iff fetch anime_ids i hi] at hmem
        rw [hmem] at hsome
        cases hsome
    · intro hnone
      refine ⟨?_, ?_⟩
      · rw [hcount, appearsCount_main fetch hid i anime_ids hnd hi, if_neg (by simp [hnone])]
      · exact (mem_failed_iff fetch anime_ids i hi).mpr hnone

/-- Witness for C1 (amended): tracking set `[1, 2]`, id 1 succeeds (one data
row, not in the failure list), id 2 fails (no row, recorded as failed). -/
theorem C1_rows_amended_witness :
    appearsCount 1 (finalRows fetchW [1, 2] (fun _ => 0) 'M') = 1 ∧
    1 ∉ failed_anime_ids fetchW [1, 2] ∧
    appearsCount 2 (finalRows fetchW [1, 2] (fun _ => 0) 'M') = 0 ∧
    2 ∈ failed_anime_ids fetchW [1, 2] := by
  have h := C1_rows_amended fetchW [1, 2] (fun _ => 0) 'M' (by decide) fetchW_id
  have h1 := (h.2 1 (by decide)).1 (by decide)
  have h2 := (h.2 2 (by decide)).2 rfl
  exact ⟨h1.1, h1.2, h2.1, h2.2⟩

/-! ## C4 — batch mapping and failure list -/

/-- **C4 counterexample.**  The claim quantifies over *every* batch fetch,
but the script extends the failure list only after the primary batch: with
primary `[1]` (succeeding) and secondary `[2]` (failing), the secondary
mapping is empty — id 2 is absent — yet the failure list is `[]`, so the
absent id of that batch is *not* recorded in the side failure list. -/
theorem C4_counterexample :
    (run_batches fetchC4 [1] [2]).2.2 = [] ∧
    (run_batches fetchC4 [1] [2]).2.1 = [] := by
  exact ⟨by decide, by decide⟩

/-- **C4 (amended).**  For the primary batch the claim holds: the mapping
keys are exactly the ids whose fetch succeeded (in input order), an id
absent from the mapping is recorded in `failed_anime_ids`, and the batch is
total by construction (the fetcher converts every exception to `None`).
The failure list of a full run depends only on the primary batch — the
secondary batch's failures are not recorded.  In the concrete
three-id batch with one NotFound id, the mapping has `3 - 1 = 2` entries
and the failure list is exactly `[2]`. -/
theorem C4_batch_amended :
    (∀ (fetch : Nat → Option AnimeData) (ids : List Nat),
      (main_batch fetch ids).map Prod.fst = ids.filter (fun j => (fetch j).isSome)) ∧
    (∀ (fetch : Nat → Option AnimeData) (ids : List Nat), ∀ i ∈ ids,
      fetch i = none →
        i ∉ (main_batch fetch ids).map Prod.fst ∧ i ∈ failed_anime_ids fetch ids) ∧
    (∀ (fetch : Nat → Option AnimeData) (ids sids : List Nat),
      (run_batches fetch ids sids).2.1 = failed_anime_ids fetch ids) ∧
    ((main_batch fetchC4 [1, 2, 3]).length = 2 ∧ failed_anime_ids fetchC4 [1, 2, 3] = [2]) := by
  refine ⟨fun fetch ids => keys_main fetch ids, ?_, fun fetch ids sids => rfl, by decide, by decide⟩
  intro fetch ids i hi hnone
  refine ⟨?_, (mem_failed_iff fetch ids i hi).mpr hnone⟩
  rw [keys_main fetch ids, List.mem_filter]
  rintro ⟨-, hsome⟩
  rw [hnone] at hsome
  cases hsome

/-- Witness for C4 (amended): the universally quantified parts applied to
the concrete one-NotFound batch. -/
theorem C4_batch_amended_witness :
    (main_batch fetchC4 [1, 2, 3]).map Prod.fst = [1, 3] ∧
    2 ∉ (main_batch fetchC4 [1, 2, 3]).map Prod.fst ∧
    2 ∈ failed_anime_ids fetchC4 [1, 2, 3] := by
  have hk := C4_batch_amended.1 fetchC4 [1, 2, 3]
  have h2 := C4_batch_amended.2.1 fetchC4 [1, 2, 3] 2 (by decide) rfl
  exact ⟨by rw [hk]; decide, h2.1, h2.2⟩

/-! ## The post-counting period window

Timestamps are modelled as integer seconds (UTC+2 epoch offsets are irrelevant to
the window logic); `datetime.timedelta(weeks=w)` is `w * seconds_per_week`.
The script computes, from the season start and the current period number,

```
if current_period == 2: current_period_start = season_start
else: current_period_start = season_start + timedelta(weeks=current_period - 2)
current_period_end = season_start + timedelta(weeks=current_period)
```

and `create_posts_sheet` admits a post into a thread's unique-poster set
iff `timestamp < current_period_end` when `current_period == 2`, else
`current_period_start <= timestamp < current_period_end`. -/

def seconds_per_week : ℤ := 604800

def current_period_start (season_start current_period : ℤ) : ℤ :=
  if current_period = 2 then season_start
  else season_start + (current_period - 2) * seconds_per_week

def current_period_end (season_start current_period : ℤ) : ℤ :=
  season_start + current_period * seconds_per_week

/-- One `(username, timestamp)` entry of a thread's `details` list. -/
structure PostDetail where
  username : String
  timestamp : ℤ
deriving DecidableEq, Repr

/-- The admission test of `create_posts_sheet`'s inner loop. -/
def post_counted (current_period pstart pend t : ℤ) : Bool :=
  if current_period = 2 then t < pend
  else pstart ≤ t && t < pend

/-- `thread_posters`: the distinct usernames among the posts admitted into
the window (Python builds a `set` and takes its size; membership and
cardinality are order-independent, so a deduplicated list models it). -/
def thread_posters (current_period pstart pend : ℤ) (details : List PostDetail) : List String :=
  ((details.filter
      (fun detail => post_counted current_period pstart pend detail.timestamp)).map
    (fun detail => detail.username)).dedup

lemma post_counted_iff (p ps pe t : ℤ) :
    post_counted p ps pe t = true ↔
      ((p = 2 ∧ t < pe) ∨ (p ≠ 2 ∧ ps ≤ t ∧ t < pe)) := by
  unfold post_counted
  by_cases hp : p = 2 <;> simp [hp]

/-! ## C8 — the period-2 edge policy -/

/-- **C8.**  A post counts toward a thread's unique-poster metric exactly
when: the current period number is 2 and its timestamp is strictly before
the period end (no lower bound), or the period number is not 2 and
`periodStart ≤ timestamp < periodEnd`, with the boundaries computed from
the season start as in the script.  Concretely (season start 0): a post 5
seconds *before* the period start is included in period 2 but a post before
the period-4 start is excluded in period 4. -/
theorem C8_period_window :
    (∀ (current_period season_start : ℤ) (details : List PostDetail) (u : String),
      (u ∈ thread_posters current_period
          (current_period_start season_start current_period)
          (current_period_end season_start current_period) details ↔
        ∃ detail ∈ details, detail.username = u ∧
          ((current_period = 2 ∧
            detail.timestamp < current_period_end season_start current_period) ∨
           (current_period ≠ 2 ∧
            current_period_start season_start current_period ≤ detail.timestamp ∧
            detail.timestamp < current_period_end season_start current_period)))) ∧
    thread_posters 2 (current_period_start 0 2) (current_period_end 0 2)
      [⟨"alice", -5⟩] = ["alice"] ∧
    thread_posters 4 (current_period_start 0 4) (current_period_end 0 4)
      [⟨"alice", 604800⟩] = [] := by
  refine ⟨?_, by decide, by decide⟩
  intro p s details u
  unfold thread_posters
  rw [List.mem_dedup, List.mem_map]
  constructor
  · rintro ⟨detail, hmem, hu⟩
    rw [List.mem_filter] at hmem
    exact ⟨detail, hmem.1, hu, (post_counted_iff _ _ _ _).mp hmem.2⟩
  · rintro ⟨detail, hmem, hu, hcond⟩
    exact ⟨detail, List.mem_filter.mpr ⟨hmem, (post_counted_iff _ _ _ _).mpr hcond⟩, hu⟩

/-! ## C9 — the concurrency cap

`main(anime_ids)` creates `semaphore = Semaphore(max_conc_requests)` and
every `fetch_anime_data` task runs its whole body under
`async with semaphore`.  We model the batch as a transition system: each
task is idle, in flight (holding the semaphore), or done; a task may enter
flight only when fewer than `cap` tasks are in flight (the semaphore
acquire), and an in-flight task may finish at any time (the release).
`BatchReachable cap n` is the set of states reachable from the launch state
of `n` idle tasks under any interleaving. -/

inductive TaskState where
  | idle
  | inFlight
  | done
deriving DecidableEq, Repr

/-- Number of tasks currently holding the semaphore. -/
def inflight (s : List TaskState) : Nat :=
  s.countP (fun t => t == TaskState.inFlight)

/-- One scheduler step: a semaphore acquire (guarded by the cap) or a task
completion (the release). -/
inductive BatchStep (cap : Nat) : List TaskState → List TaskState → Prop
  | acquire (s : List TaskState) (i : Nat) (hi : i < s.length)
      (hidle : s.get ⟨i, hi⟩ = TaskState.idle) (hcap : inflight s < cap) :
      BatchStep cap s (s.set i TaskState.inFlight)
  | release (s : List TaskState) (i : Nat) (hi : i < s.length)
      (hrun : s.get ⟨i, hi⟩ = TaskState.inFlight) :
      BatchStep cap s (s.set i TaskState.done)

/-- States reachable from the launch state of `n` pending tasks. -/
def BatchReachable (cap n : Nat) (s : List TaskState) : Prop :=
  Relation.ReflTransGen (BatchStep cap) (List.replicate n TaskState.idle) s

lemma inflight_set : ∀ (s : List TaskState) (i : Nat) (hi : i < s.length) (a : TaskState),
    inflight (s.set i a) + (if s.get ⟨i, hi⟩ = TaskState.inFlight then 1 else 0) =
      inflight s + (if a = TaskState.inFlight then 1 else 0)
  | [], i, hi, a => by simp at hi
  | b :: t, 0, hi, a => by
    simp only [List.set, List.get_cons_zero, inflight, List.countP_cons]
    cases a <;> cases b <;> simp
  | b :: t, j + 1, hi, a => by
    have hj : j < t.length := by simpa using hi
    have ih := inflight_set t j hj a
    simp only [List.set, List.get_cons_succ, inflight, List.countP_cons] at ih ⊢
    split_ifs at ih ⊢ <;> omega

lemma inflight_replicate (n : Nat) : inflight (List.replicate n TaskState.idle) = 0 := by
  induction n with
  | zero => rfl
  | succ m ih =>
    simp only [List.replicate_succ, inflight, List.countP_cons] at ih ⊢
    simp [ih]

/-- **C9.**  In every state reachable under the semaphore-gated scheduling,
at most `cap` fetch tasks are in flight simultaneously: an acquire is only
enabled below the cap, and every other step can only lower the in-flight
count. -/
theorem C9_concurrency_cap (cap n : Nat) (s : List TaskState)
    (h : BatchReachable cap n s) : inflight s ≤ cap := by
  induction h with
  | refl => simp [inflight_replicate]
  | tail _ step ih =>
    cases step with
    | acquire i hi hidle hcap =>
      have hset := inflight_set _ i hi TaskState.inFlight
      rw [hidle] at hset
      simp at hset
      omega
    | release i hi hrun =>
      have hset := inflight_set _ i hi TaskState.done
      rw [hrun] at hset
      simp at hset
      omega

/-- Witness for C9: with cap 2 and 10 pending fetches, the state reached by
two acquire steps has exactly 2 tasks in flight — within the cap. -/
theorem C9_concurrency_cap_witness :
    inflight (((List.replicate 10 TaskState.idle).set 0 TaskState.inFlight).set 1
      TaskState.inFlight) ≤ 2 :=
  C9_concurrency_cap 2 10 _
    (Relation.ReflTransGen.tail
      (Relation.ReflTransGen.tail Relation.ReflTransGen.refl
        (BatchStep.acquire _ 0 (by decide) (by decide) (by decide)))
      (BatchStep.acquire _ 1 (by decide) (by decide) (by decide)))
